import Mathlib

/-
Verification development for the permanentdetour repository.

The Go program (src/main.go) is shallowly embedded below:
* strings are modelled as `String` / `List Char` (all inputs the claims
  exercise are ASCII, where Go's byte-level slicing coincides with
  character-level slicing);
* Go's `map[uint32]uint64` is modelled as an association list
  `List (Nat × Nat)` (keys are unique by construction: the loader refuses
  duplicate keys before inserting);
* machine integers are `Nat` with explicit `2 ^ 32` / `2 ^ 64` bounds
  enforced exactly where `strconv.ParseUint` enforces them;
* fallible Go functions returning `error` become `Except`;
* `log.Fatal` on a load error becomes an `Except.error` result of `boot`
  (the process exits, so no server/handler value is ever produced).
-/

namespace PermanentDetour

/-! ## Constants from src/main.go -/

/-- src/main.go line 37: prefix of record-permalink requests. -/
def RecordPrefix : String := "/record=b"

/-- src/main.go line 40: prefix of patron login form requests. -/
def PatronInfoPrefix : String := "/patroninfo"

/-- src/main.go line 43: prefix of author index search requests. -/
def SearchAuthorIndexPrefix : String := "/search/a"

/-- src/main.go line 46: prefix of call number index search requests. -/
def SearchCallNumberIndexPrefix : String := "/search/c"

/-- src/main.go line 49: prefix for the title search.  NOTE: the source
literally assigns `"/search/c"` here, identical to the call-number value. -/
def SearchTitleIndexPrefix : String := "/search/c"

/-- src/main.go line 52: prefix of search result requests. -/
def SearchPrefix : String := "/search/"

/-- src/main.go line 55: prefix for seeing a record when browsing results. -/
def SearchResultRecordPrefix : String := "/search~S9"

/-- src/main.go line 31: the domain at which Primo instances are hosted. -/
def PrimoDomain : String := "primo.exlibrisgroup.com"

/-! ## Identifier record parser (src/main.go lines 316-346) -/

/-- Errors produced by `processLine`.  Go returns `error` values; the
constructors record which of the return sites fired.  `goSlicePanic` marks
the one input class (`splitLine[1]` empty with no dash) where the Go code
would panic on the slice expression `splitLine[1][1:]` rather than return. -/
inductive LineError where
  | fieldCount (found : Nat)
  | noBibID
  | goSlicePanic
  | parseIntError
deriving DecidableEq

/-- Model of Go `strings.Split(line, ",")` on character lists: splitting the
empty string yields one empty field, and every separator starts a new field. -/
def splitChar (c : Char) : List Char → List (List Char)
  | [] => [[]]
  | x :: xs =>
    if x = c then [] :: splitChar c xs
    else
      match splitChar c xs with
      | [] => [[x]]
      | y :: ys => (x :: y) :: ys

/-- Model of Go `strings.Index(s, "-")` for a single-character needle:
the index of the first occurrence, or `none` for Go's `-1`. -/
def idxOfChar (c : Char) : List Char → Option Nat
  | [] => none
  | x :: xs => if x = c then some 0 else (idxOfChar c xs).map (· + 1)

/-- The numeric value denoted by a string of decimal digits, most
significant digit first (the accumulator loop of `strconv.ParseUint`). -/
def digitsVal (s : List Char) : Nat :=
  s.foldl (fun a c => 10 * a + (c.toNat - 48)) 0

/-- Model of Go `strconv.ParseUint(s, 10, bitSize)`: fails on the empty
string, on any non-digit character, and on values exceeding
`2 ^ bitSize - 1` (Go reports `ErrRange` there; callers only test `err != nil`,
so failure is modelled as `none`). -/
def parseUint (s : List Char) (bitSize : Nat) : Option Nat :=
  if s = [] then none
  else if s.all Char.isDigit then
    if digitsVal s < 2 ^ bitSize then some (digitsVal s) else none
  else none

/-- The bibID-string extraction step of `processLine` (src/main.go lines
325-335): strip the leading type-flag character, truncate at the first dash
when present; a dash at offset 0 or 1 is a format error.  When no dash is
present Go evaluates `splitLine[1][1:]`, which panics for an empty field
(`goSlicePanic`). -/
def extractBibID (f1 : List Char) : Except LineError (List Char) :=
  match idxOfChar '-' f1 with
  | some 0 => .error .noBibID
  | some 1 => .error .noBibID
  | none =>
    match f1 with
    | [] => .error .goSlicePanic
    | _ :: rest => .ok rest
  | some i => .ok ((f1.drop 1).take (i - 1))

/-- Model of `processLine` (src/main.go lines 316-346): split on commas,
require at least two fields, extract the bibID digits from the second
field, parse them as a 32-bit unsigned integer, then parse the first field
as a 64-bit unsigned integer. -/
def processLine (line : String) : Except LineError (Nat × Nat) :=
  match splitChar ',' line.toList with
  | f0 :: f1 :: _ =>
    match extractBibID f1 with
    | .error e => .error e
    | .ok bibIDString =>
      match parseUint bibIDString 32 with
      | none => .error .parseIntError
      | some bibID =>
        match parseUint f0 64 with
        | none => .error .parseIntError
        | some exlID => .ok (bibID, exlID)
  | fields => .error (.fieldCount fields.length)

/-! ## Mapping table loader (src/main.go lines 279-314 and main) -/

/-- The map of III BibIDs to ExL IDs, Go's `map[uint32]uint64`. -/
abbrev Table := List (Nat × Nat)

/-- Errors produced while loading mapping files.  `lineError` records the
1-based line number (Go formats it into the message); `duplicate` carries
the offending Bib ID (Go formats "Previously seen Bib ID %v was
encountered."). -/
inductive LoadError where
  | lineError (lnum : Nat) (e : LineError)
  | duplicate (bibID : Nat)
deriving DecidableEq

/-- The scanner loop of `processFile` (src/main.go lines 295-308): process
lines in order, failing on the first parse error or previously seen Bib ID,
otherwise inserting the mapping.  `lnum` counts lines already processed. -/
def processLinesAux : Table → Nat → List String → Except LoadError Table
  | m, _, [] => .ok m
  | m, lnum, l :: ls =>
    match processLine l with
    | .error e => .error (.lineError (lnum + 1) e)
    | .ok (b, ex) =>
      if (List.lookup b m).isSome then .error (.duplicate b)
      else processLinesAux (m ++ [(b, ex)]) (lnum + 1) ls

/-- Model of `processFile` restricted to its translation core: the file's
contents are already presented as a list of lines. -/
def processFile (m : Table) (lines : List String) : Except LoadError Table :=
  processLinesAux m 0 lines

/-- The mapping-file loop of `main` (src/main.go lines 237-243): each file
is processed against the table built so far; the first error aborts. -/
def processFiles : Table → List (List String) → Except LoadError Table
  | m, [] => .ok m
  | m, f :: fs =>
    match processFile m f with
    | .error e => .error e
    | .ok mNew => processFiles mNew fs

/-! ## Redirect dispatcher (src/main.go lines 61-186) -/

/-- The parts of Go's `url.URL` that the program writes: scheme, host,
path, and the query parameters.  Parameters are kept as an association
list; `url.Values.Set` keeps keys unique, which `setParam` preserves. -/
structure URL where
  scheme : String
  host : String
  path : String
  query : List (String × String)
deriving DecidableEq

/-- Model of `url.Values.Set` on a unique-key parameter list: replace the
value when the key is present, append the pair otherwise. -/
def setParam : List (String × String) → String → String → List (String × String)
  | [], k, v => [(k, v)]
  | (k0, v0) :: rest, k, v =>
    if k0 = k then (k, v) :: rest else (k0, v0) :: setParam rest k v

/-- Model of `setParamInURL` (src/main.go lines 390-395). -/
def setParamInURL (u : URL) (param value : String) : URL :=
  { u with query := setParam u.query param value }

/-- An inbound request: its path and query.  `query k` models
`r.URL.Query().Get(k)`, which returns the empty string for absent keys. -/
structure Request where
  path : String
  query : String → String

/-- The data needed to perform redirects (src/main.go lines 61-66). -/
structure Detourer where
  idMap : Table
  primo : String
  vid : String

/-- Model of Go `strings.HasPrefix(s, pre)`: for valid UTF-8 strings, byte
prefixes and character prefixes coincide. -/
def hasPrefix (s pre : String) : Bool :=
  pre.toList.isPrefixOf s.toList

/-- Model of `buildRecordRedirect` (src/main.go lines 102-114): parse
everything after the record path marker as a 32-bit unsigned integer, look
it up, and on success target the full display page with the `docid`
parameter; otherwise return the redirect target unchanged. -/
def buildRecordRedirect (redirectTo : URL) (r : Request) (idMap : Table) : URL :=
  match parseUint (r.path.toList.drop RecordPrefix.length) 32 with
  | none => redirectTo
  | some bibID =>
    match List.lookup bibID idMap with
    | none => redirectTo
    | some exlID =>
      setParamInURL { redirectTo with path := "/discovery/fulldisplay" }
        "docid" ("alma" ++ toString exlID)

/-- Model of `buildAuthorSearchRedirect` (src/main.go lines 116-125). -/
def buildAuthorSearchRedirect (redirectTo : URL) (r : Request) : URL :=
  let u := setParamInURL { redirectTo with path := "/discovery/browse" }
    "browseScope" "author"
  if r.query "SEARCH" = "" then u
  else setParamInURL u "browseQuery" (r.query "SEARCH")

/-- Model of `buildCallNumberSearchRedirect` (src/main.go lines 127-136). -/
def buildCallNumberSearchRedirect (redirectTo : URL) (r : Request) : URL :=
  let u := setParamInURL { redirectTo with path := "/discovery/browse" }
    "browseScope" "callnumber.0"
  if r.query "SEARCH" = "" then u
  else setParamInURL u "browseQuery" (r.query "SEARCH")

/-- Model of `buildTitleSearchRedirect` (src/main.go lines 138-147). -/
def buildTitleSearchRedirect (redirectTo : URL) (r : Request) : URL :=
  let u := setParamInURL { redirectTo with path := "/discovery/browse" }
    "browseScope" "title"
  if r.query "SEARCH" = "" then u
  else setParamInURL u "browseQuery" (r.query "SEARCH")

/-- Model of `buildSearchRedirect` (src/main.go lines 149-186). -/
def buildSearchRedirect (redirectTo : URL) (r : Request) : URL :=
  if r.query "searcharg" = "" then redirectTo
  else
    let u0 := { redirectTo with path := "/discovery/search" }
    let u1 :=
      match r.query "searchtype" with
      | "t" => setParamInURL u0 "query" ("title,contains," ++ r.query "searcharg")
      | "a" => setParamInURL u0 "query" ("creator,contains," ++ r.query "searcharg")
      | "d" => setParamInURL u0 "query" ("sub,contains," ++ r.query "searcharg")
      | "c" =>
        setParamInURL
          (setParamInURL { u0 with path := "/discovery/browse" }
            "browseScope" "callnumber.0")
          "browseQuery" (r.query "searcharg")
      | _ => setParamInURL u0 "query" ("any,contains," ++ r.query "searcharg")
    let u2 :=
      match r.query "searchdropdown" with
      | "t" => setParamInURL u1 "sortby" "title"
      | "a" => setParamInURL u1 "sortby" "author"
      | "c" => setParamInURL u1 "sortby" "date_a"
      | "r" => setParamInURL u1 "sortby" "date_d"
      | _ => u1
    setParamInURL (setParamInURL u2 "tab" "Everything")
      "search_scope" "MyInst_and_CI"

/-- Model of `Detourer.ServeHTTP` (src/main.go lines 69-100): start from
the Primo search form, dispatch on the first matching path marker in
declaration order, always set the `vid` parameter, and always answer with
HTTP status 301 (`http.StatusMovedPermanently`) — never an error status. -/
def Detourer.ServeHTTP (d : Detourer) (r : Request) : URL × Nat :=
  let base : URL := ⟨"https", d.primo, "/discovery/search", []⟩
  let redirectTo :=
    if hasPrefix r.path RecordPrefix then
      buildRecordRedirect base r d.idMap
    else if hasPrefix r.path PatronInfoPrefix then
      { base with path := "/discovery/login" }
    else if hasPrefix r.path SearchAuthorIndexPrefix then
      buildAuthorSearchRedirect base r
    else if hasPrefix r.path SearchCallNumberIndexPrefix then
      buildCallNumberSearchRedirect base r
    else if hasPrefix r.path SearchTitleIndexPrefix then
      buildTitleSearchRedirect base r
    else if hasPrefix r.path SearchPrefix then
      buildSearchRedirect base r
    else if hasPrefix r.path SearchResultRecordPrefix then
      base
    else base
  (setParamInURL redirectTo "vid" d.vid, 301)

/-- The startup phase of `main` (src/main.go lines 226-245) restricted to
its translation core: build the table from the mapping sources; any load
error is fatal (`log.Fatal` exits), so a `Detourer` — and hence a serving
handler — exists only when every source loaded without error. -/
def boot (subdomain vid : String) (files : List (List String)) :
    Except LoadError Detourer :=
  match processFiles [] files with
  | .error e => .error e
  | .ok m => .ok ⟨m, subdomain ++ "." ++ PrimoDomain, vid⟩

/-! ## Advanced search decoder

The repository's test file (src/main_test.go, `TestDecodeAdvancedSearch`)
and README exercise a function `decodeAdvancedSearch`, but its
implementation is not among the provided source files.  The definitions
below are therefore modelled from spec.md §4.4, producing the structured
`SearchTerm` records of §3. -/

/-- Modelled from the spec: the `field` component of a `SearchTerm`
(spec.md §3); the implementation of the Advanced Search Decoder is missing
from src/. -/
inductive Field where
  | any
  | title
  | creator
  | subject
deriving DecidableEq

/-- Modelled from the spec: the trailing connective of a `SearchTerm`
(spec.md §3). -/
inductive Conn where
  | AND
  | OR
  | NOT
deriving DecidableEq

/-- Modelled from the spec: one structured search term
`{field, operator, text, connective}` (spec.md §3); the operator is always
the fixed string "contains". -/
structure SearchTerm where
  field : Field
  op : String
  text : String
  conn : Conn
deriving DecidableEq

/-- Helper for `parenWrapped`: scanning the characters after an initial
open paren at nesting depth `d`, succeed only when the depth first returns
to zero exactly at the last character, which must be a close paren. -/
def parenWrappedAux : List Char → Nat → Bool
  | [], _ => false
  | [c], d => c = ')' && d = 1
  | c :: cs, d =>
    let dNew := if c = '(' then d + 1 else if c = ')' then d - 1 else d
    if dNew = 0 then false else parenWrappedAux cs dNew

/-- Modelled from the spec (§4.4 step 1): the open paren at position 0
closes exactly at the last character, with balanced nesting in between. -/
def parenWrapped : List Char → Bool
  | '(' :: rest => parenWrappedAux rest 1
  | _ => false

/-- One outer-wrap stripping pass with explicit fuel; each strip removes
two characters, so fuel equal to the string length always suffices. -/
def stripOuterFuel : Nat → List Char → List Char
  | 0, s => s
  | fuel + 1, s => if parenWrapped s then stripOuterFuel fuel ((s.drop 1).dropLast) else s

/-- Modelled from the spec (§4.4 step 1): repeatedly strip a single leading
open paren and trailing close paren while they are a matching pair spanning
the whole expression. -/
def stripOuter (s : List Char) : List Char :=
  stripOuterFuel s.length s

/-- A whitespace token, lowercased for the case-insensitive connective
comparison of spec.md §4.4 step 2. -/
def lowerTok (w : List Char) : List Char :=
  w.map Char.toLower

/-- The paren-nesting depth after scanning one token, starting from depth
`d`; depth is clamped at zero on unmatched close parens. -/
def depthDelta (w : List Char) (d : Nat) : Nat :=
  w.foldl (fun acc c => if c = '(' then acc + 1 else if c = ')' then acc - 1 else acc) d

/-- The whitespace-delimited tokens of the expression (empty tokens from
consecutive spaces are dropped). -/
def tokensOf (s : List Char) : List (List Char) :=
  (splitChar ' ' s).filter (fun w => w ≠ [])

/-- Modelled from the spec (§4.4 step 2): scan tokens left to right
tracking paren-nesting depth; at depth zero the words `and not`, `and`,
`or` (case-insensitive) end the current segment and become its trailing
connective; the final segment's connective is `AND`. -/
def segsOf : List (List Char) → Nat → List (List Char) → List (List (List Char) × Conn)
  | [], _, cur => [(cur.reverse, Conn.AND)]
  | [w], d, cur =>
    if d = 0 then
      if lowerTok w = "and".toList then [(cur.reverse, Conn.AND), ([], Conn.AND)]
      else if lowerTok w = "or".toList then [(cur.reverse, Conn.OR), ([], Conn.AND)]
      else [((w :: cur).reverse, Conn.AND)]
    else [((w :: cur).reverse, Conn.AND)]
  | w :: n :: ws, d, cur =>
    if d = 0 then
      if lowerTok w = "and".toList then
        if lowerTok n = "not".toList then (cur.reverse, Conn.NOT) :: segsOf ws 0 []
        else (cur.reverse, Conn.AND) :: segsOf (n :: ws) 0 []
      else if lowerTok w = "or".toList then
        (cur.reverse, Conn.OR) :: segsOf (n :: ws) 0 []
      else segsOf (n :: ws) (depthDelta w 0) (w :: cur)
    else segsOf (n :: ws) (depthDelta w d) (w :: cur)

/-- Rejoin a segment's tokens with single spaces to recover its text. -/
def joinSpace : List (List Char) → List Char
  | [] => []
  | [w] => w
  | w :: ws => w ++ ' ' :: joinSpace ws

/-- Modelled from the spec (§4.4 step 3): strip a single enclosing paren
pair from a segment when the pair exactly spans it. -/
def stripSegParens (s : List Char) : List Char :=
  if parenWrapped s then (s.drop 1).dropLast else s

/-- Modelled from the spec (§4.4 step 3): the recognized single-character
field codes. -/
def fieldOf : Char → Option Field
  | 't' => some Field.title
  | 'a' => some Field.creator
  | 'd' => some Field.subject
  | _ => none

/-- Modelled from the spec (§4.4 step 3): a segment has an extractable
field exactly when it is `<field-letter>:(<text>)` — a recognized code, a
colon, and an inner paren pair whose close paren is the segment's very last
character; the inner text is taken verbatim. -/
def matchFieldShape (s : List Char) : Option (Field × List Char) :=
  match s with
  | f :: ':' :: rest =>
    match fieldOf f with
    | some fld =>
      if parenWrapped rest then some (fld, (rest.drop 1).dropLast) else none
    | none => none
  | _ => none

/-- A string consisting solely of parentheses (in particular the empty
string): such residue of malformed input yields no term. -/
def allParen (s : List Char) : Bool :=
  s.all (fun c => c = '(' || c = ')')

/-- Modelled from the spec (§4.4 steps 3-4): build the term for one
segment; paren-only residue (including empty segments) degrades to no term
rather than an error. -/
def segmentTerm (toks : List (List Char)) (conn : Conn) : Option SearchTerm :=
  let text := stripSegParens (joinSpace toks)
  if allParen text then none
  else
    match matchFieldShape text with
    | some (fld, inner) => some ⟨fld, "contains", String.mk inner, conn⟩
    | none => some ⟨Field.any, "contains", String.mk text, conn⟩

/-- Modelled from the spec: `decode(expression)` (spec.md §4.4), the
Advanced Search Decoder, whose implementation is missing from src/ (only
its tests in src/main_test.go and the README mention it).  It is a total
function — every input string yields a list of terms, never an error. -/
def decodeAdvancedSearch (s : String) : List SearchTerm :=
  (segsOf (tokensOf (stripOuter s.toList)) 0 []).filterMap
    (fun seg => segmentTerm seg.1 seg.2)

/-! ## Helper lemmas -/

theorem lookup_setParam_self (q : List (String × String)) (k v : String) :
    List.lookup k (setParam q k v) = some v := by
  induction q with
  | nil => simp [setParam, List.lookup]
  | cons p rest ih =>
    obtain ⟨k0, v0⟩ := p
    by_cases h : k0 = k
    · simp [setParam, h, List.lookup]
    · have h2 : (k == k0) = false := beq_eq_false_iff_ne.mpr fun e => h e.symm
      simp [setParam, h, List.lookup, h2, ih]

theorem splitChar_ne_nil (c : Char) (ys : List Char) : splitChar c ys ≠ [] := by
  induction ys with
  | nil => simp [splitChar]
  | cons a l ih =>
    by_cases hac : a = c
    · simp [splitChar, hac]
    · rcases h : splitChar c l with _ | ⟨y, t⟩ <;> simp [splitChar, hac, h]

theorem splitChar_head (c : Char) (ys : List Char) :
    ∃ t, splitChar c ys = ys.takeWhile (fun x => x != c) :: t := by
  induction ys with
  | nil => exact ⟨[], rfl⟩
  | cons a l ih =>
    by_cases hac : a = c
    · subst hac
      exact ⟨splitChar a l, by simp [splitChar]⟩
    · obtain ⟨t, ht⟩ := ih
      refine ⟨t, ?_⟩
      have hb : (a != c) = true := bne_iff_ne.mpr hac
      simp [splitChar, hac, ht, List.takeWhile_cons, hb]

theorem splitChar_append (c : Char) (xs ys : List Char) (h : c ∉ xs) :
    splitChar c (xs ++ c :: ys) = xs :: splitChar c ys := by
  induction xs with
  | nil => simp [splitChar]
  | cons a l ih =>
    have ha : a ≠ c := fun e => h (by simp [e])
    have ih2 := ih fun hc => h (List.mem_cons_of_mem _ hc)
    simp [splitChar, ha, ih2]

theorem idxOfChar_append (c : Char) (xs ys : List Char) (h : c ∉ xs) :
    idxOfChar c (xs ++ c :: ys) = some xs.length := by
  induction xs with
  | nil => simp [idxOfChar]
  | cons a l ih =>
    have ha : a ≠ c := fun e => h (by simp [e])
    have ih2 := ih fun hc => h (List.mem_cons_of_mem _ hc)
    simp [idxOfChar, ha, ih2]

theorem idxOfChar_none (c : Char) (ys : List Char) (h : c ∉ ys) :
    idxOfChar c ys = none := by
  induction ys with
  | nil => rfl
  | cons a l ih =>
    have ha : a ≠ c := fun e => h (by simp [e])
    have ih2 := ih fun hc => h (List.mem_cons_of_mem _ hc)
    simp [idxOfChar, ha, ih2]

theorem takeWhile_append_all {p : Char → Bool} (xs ys : List Char)
    (h : ∀ x ∈ xs, p x = true) :
    (xs ++ ys).takeWhile p = xs ++ ys.takeWhile p := by
  induction xs with
  | nil => simp
  | cons a l ih =>
    have ih2 := ih fun x hx => h x (List.mem_cons_of_mem _ hx)
    simp [List.takeWhile_cons, h a (by simp), ih2]

theorem take_len_append {α : Type} (xs ys : List α) :
    (xs ++ ys).take xs.length = xs := by
  induction xs with
  | nil => simp
  | cons a l ih => simp [ih]

theorem extractBibID_dash (flag : Char) (ds tail : List Char)
    (hf : flag ≠ '-') (hd : '-' ∉ ds) (hne : ds ≠ []) :
    extractBibID (flag :: (ds ++ '-' :: tail)) = .ok ds := by
  obtain ⟨c, cs, rfl⟩ := List.exists_cons_of_ne_nil hne
  have hidx : idxOfChar '-' (flag :: (c :: cs ++ '-' :: tail))
      = some (cs.length + 2) := by
    have h2 : '-' ∉ flag :: c :: cs := by
      intro hm
      rcases List.mem_cons.mp hm with h | hm2
      · exact hf h.symm
      · exact hd hm2
    have := idxOfChar_append '-' (flag :: c :: cs) tail h2
    simpa using this
  unfold extractBibID
  rw [hidx]
  simp [take_len_append]

theorem extractBibID_noDash (flag : Char) (rest : List Char)
    (h : '-' ∉ flag :: rest) :
    extractBibID (flag :: rest) = .ok rest := by
  unfold extractBibID
  rw [idxOfChar_none '-' _ h]

theorem extractBibID_dashAtZero (rest : List Char) :
    extractBibID ('-' :: rest) = .error .noBibID := by
  unfold extractBibID
  have : idxOfChar '-' ('-' :: rest) = some 0 := by simp [idxOfChar]
  rw [this]

theorem extractBibID_dashAtOne (flag : Char) (rest : List Char)
    (hf : flag ≠ '-') :
    extractBibID (flag :: '-' :: rest) = .error .noBibID := by
  unfold extractBibID
  have : idxOfChar '-' (flag :: '-' :: rest) = some 1 := by simp [idxOfChar, hf]
  rw [this]

theorem digit_all_ne {s : List Char} (hd : ∀ c ∈ s, c.isDigit = true) :
    ',' ∉ s ∧ '-' ∉ s :=
  ⟨fun hm => absurd (hd _ hm) (by decide), fun hm => absurd (hd _ hm) (by decide)⟩

theorem parseUint_digits (s : List Char) (bitSize : Nat) (hne : s ≠ [])
    (hd : ∀ c ∈ s, c.isDigit = true) :
    parseUint s bitSize =
      if digitsVal s < 2 ^ bitSize then some (digitsVal s) else none := by
  unfold parseUint
  simp [hne, List.all_eq_true.mpr hd]

theorem processLine_split (f0 rest2 : List Char) (h0 : ',' ∉ f0) :
    processLine (String.mk (f0 ++ ',' :: rest2)) =
      match extractBibID (rest2.takeWhile (fun x => x != ',')) with
      | .error e => .error e
      | .ok bs =>
        match parseUint bs 32 with
        | none => .error .parseIntError
        | some bibID =>
          match parseUint f0 64 with
          | none => .error .parseIntError
          | some exlID => .ok (bibID, exlID) := by
  obtain ⟨t, ht⟩ := splitChar_head ',' rest2
  have hsp : splitChar ',' (f0 ++ ',' :: rest2) = f0 :: splitChar ',' rest2 :=
    splitChar_append ',' f0 rest2 h0
  show processLine ⟨f0 ++ ',' :: rest2⟩ = _
  unfold processLine
  simp only [String.toList]
  rw [hsp, ht]

theorem processFiles_ok_append (fs1 fs2 : List (List String)) (m m1 : Table)
    (h : processFiles m fs1 = .ok m1) :
    processFiles m (fs1 ++ fs2) = processFiles m1 fs2 := by
  induction fs1 generalizing m with
  | nil =>
    simp [processFiles] at h
    subst h
    rfl
  | cons f fs ih =>
    rcases hpf : processFile m f with e | mNew
    · rw [processFiles] at h
      rw [hpf] at h
      exact absurd h (by simp)
    · rw [processFiles] at h
      rw [hpf] at h
      show processFiles m (f :: (fs ++ fs2)) = _
      rw [processFiles, hpf]
      exact ih mNew h

theorem processLinesAux_ok_append (xs ys : List String) (m m1 : Table) (k : Nat)
    (h : processLinesAux m k xs = .ok m1) :
    processLinesAux m k (xs ++ ys) = processLinesAux m1 (k + xs.length) ys := by
  induction xs generalizing m k with
  | nil =>
    simp [processLinesAux] at h
    subst h
    rfl
  | cons l ls ih =>
    rcases hpl : processLine l with e | be
    · simp only [processLinesAux, hpl] at h
      exact absurd h (by simp)
    · obtain ⟨b, ex⟩ := be
      simp only [processLinesAux, hpl] at h
      by_cases hdup : (List.lookup b m).isSome = true
      · simp only [if_pos hdup] at h
        exact absurd h (by simp)
      · simp only [if_neg hdup] at h
        show processLinesAux m k (l :: (ls ++ ys)) = _
        simp only [processLinesAux, hpl, if_neg hdup]
        have hstep := ih (m ++ [(b, ex)]) (k + 1) h
        rw [hstep]
        have harith : k + 1 + ls.length = k + (l :: ls).length := by
          simp [List.length_cons]
          omega
        rw [harith]

/-! ## Claim theorems -/

/-- C7: for every inbound request, regardless of which redirect rule fires
(including the default landing-page rule), the outbound URL's query string
carries the destination-instance identifier: the `vid` parameter is set to
the configured value.  `ServeHTTP` sets `vid` unconditionally after the
dispatch switch (src/main.go line 96). -/
theorem vid_on_every_outbound_url (d : Detourer) (r : Request) :
    List.lookup "vid" (d.ServeHTTP r).1.query = some d.vid :=
  lookup_setParam_self _ "vid" d.vid

/-- C7 witness: a request matching no dispatch rule still carries the
configured vid value in the outbound query. -/
theorem vid_on_every_outbound_url_witness :
    List.lookup "vid"
      ((Detourer.ServeHTTP ⟨[], "example", "VID"⟩ ⟨"/other", fun _ => ""⟩).1.query)
      = some "VID" :=
  vid_on_every_outbound_url ⟨[], "example", "VID"⟩ ⟨"/other", fun _ => ""⟩

/-- C8: every input line that splits into fewer than two comma-separated
fields makes `processLine` fail with the field-count error carrying the
observed field count; the parser takes its error branch without consulting
(indexing into) any field. -/
theorem short_line_fails_field_count (line : String)
    (h : (splitChar ',' line.toList).length < 2) :
    processLine line = .error (.fieldCount (splitChar ',' line.toList).length) := by
  rcases hs : splitChar ',' line.toList with _ | ⟨f0, _ | ⟨f1, t⟩⟩
  · have hs2 : splitChar ',' line.data = [] := hs
    simp [processLine, hs2]
  · have hs2 : splitChar ',' line.data = [f0] := hs
    simp [processLine, hs2]
  · rw [hs] at h
    simp at h
    omega

/-- C8 witness: the empty line splits into one (empty) field and fails with
the field-count error reporting one field. -/
theorem short_line_fails_field_count_witness :
    processLine "" = .error (.fieldCount 1) :=
  short_line_fails_field_count "" (by decide)

/-- C6: the title-index claim fails on the code.  `SearchTitleIndexPrefix`
is literally `"/search/c"` (src/main.go line 49), identical to
`SearchCallNumberIndexPrefix`, so the call-number case of the dispatch
switch always wins and `buildTitleSearchRedirect` is unreachable: a request
whose path carries the title-index prefix is answered with
`browseScope=callnumber.0`, not `browseScope=title` — contradicting the
constant's own doc comment ("the prefix ... for the title search"), the
README's documented title-index support, and the spec. -/
theorem title_index_prefix_gets_callnumber_scope :
    SearchTitleIndexPrefix = SearchCallNumberIndexPrefix
    ∧ hasPrefix "/search/c100" SearchTitleIndexPrefix = true
    ∧ List.lookup "browseScope"
        ((Detourer.ServeHTTP ⟨[], "example", "VID"⟩
          ⟨"/search/c100", fun k => if k = "SEARCH" then "twain" else ""⟩).1.query)
        = some "callnumber.0"
    ∧ List.lookup "browseScope"
        ((Detourer.ServeHTTP ⟨[], "example", "VID"⟩
          ⟨"/search/c100", fun k => if k = "SEARCH" then "twain" else ""⟩).1.query)
        ≠ some "title" := by
  refine ⟨rfl, by decide, by decide, by decide⟩

/-- C10: a request matching the general search path marker (and none of the
earlier record, patron-login, or index-browse markers) whose `searcharg`
query parameter is absent or empty is answered with the default
search-landing URL carrying only the `vid` parameter: `buildSearchRedirect`
returns immediately on empty `searcharg` (src/main.go lines 153-155). -/
theorem empty_searcharg_default_landing (d : Detourer) (r : Request)
    (h1 : hasPrefix r.path SearchPrefix = true)
    (h2 : hasPrefix r.path RecordPrefix = false)
    (h3 : hasPrefix r.path PatronInfoPrefix = false)
    (h4 : hasPrefix r.path SearchAuthorIndexPrefix = false)
    (h5 : hasPrefix r.path SearchCallNumberIndexPrefix = false)
    (h6 : hasPrefix r.path SearchTitleIndexPrefix = false)
    (h7 : r.query "searcharg" = "") :
    d.ServeHTTP r = (⟨"https", d.primo, "/discovery/search", [("vid", d.vid)]⟩, 301) := by
  simp [Detourer.ServeHTTP, h1, h2, h3, h4, h5, h6, buildSearchRedirect, h7,
    setParamInURL, setParam]

/-- C1: for every inbound request whose path begins with the
record-permalink marker, when the text after the marker parses as an
unsigned 32-bit integer that is a key of the loaded mapping table, the
outbound URL targets `/discovery/fulldisplay` with `docid=alma<targetID>`
(and the vid parameter); when the ID is malformed (fails to parse) or
absent from the table, the outbound URL is the default search-landing URL;
in both cases the response status is 301, never an HTTP error. -/
theorem record_permalink_redirect (d : Detourer) (r : Request)
    (h : hasPrefix r.path RecordPrefix = true) :
    (∀ n e, parseUint (r.path.toList.drop RecordPrefix.length) 32 = some n →
      List.lookup n d.idMap = some e →
      d.ServeHTTP r = (⟨"https", d.primo, "/discovery/fulldisplay",
        [("docid", "alma" ++ toString e), ("vid", d.vid)]⟩, 301))
    ∧ (parseUint (r.path.toList.drop RecordPrefix.length) 32 = none →
      d.ServeHTTP r = (⟨"https", d.primo, "/discovery/search",
        [("vid", d.vid)]⟩, 301))
    ∧ (∀ n, parseUint (r.path.toList.drop RecordPrefix.length) 32 = some n →
      List.lookup n d.idMap = none →
      d.ServeHTTP r = (⟨"https", d.primo, "/discovery/search",
        [("vid", d.vid)]⟩, 301)) := by
  refine ⟨?_, ?_, ?_⟩
  · intro n e hn he
    have hn2 : parseUint (List.drop RecordPrefix.length r.path.data) 32 = some n := hn
    simp [Detourer.ServeHTTP, h, buildRecordRedirect, hn2, he,
      setParamInURL, setParam]
  · intro hn
    have hn2 : parseUint (List.drop RecordPrefix.length r.path.data) 32 = none := hn
    simp [Detourer.ServeHTTP, h, buildRecordRedirect, hn2,
      setParamInURL, setParam]
  · intro n hn he
    have hn2 : parseUint (List.drop RecordPrefix.length r.path.data) 32 = some n := hn
    simp [Detourer.ServeHTTP, h, buildRecordRedirect, hn2, he,
      setParamInURL, setParam]

/-- C1 witness: with the table of the spec's end-to-end example loaded,
`/record=b2405380` goes to the full display page for
`alma991018705459705153`, and the unmapped `/record=b999` and the
malformed `/record=bXYZ` both go to the default search-landing URL. -/
theorem record_permalink_redirect_witness :
    Detourer.ServeHTTP ⟨[(2405380, 991018705459705153)], "ocul-crl", "V"⟩
        ⟨"/record=b2405380", fun _ => ""⟩
      = (⟨"https", "ocul-crl", "/discovery/fulldisplay",
          [("docid", "alma" ++ toString 991018705459705153), ("vid", "V")]⟩, 301)
    ∧ Detourer.ServeHTTP ⟨[(2405380, 991018705459705153)], "ocul-crl", "V"⟩
        ⟨"/record=b999", fun _ => ""⟩
      = (⟨"https", "ocul-crl", "/discovery/search", [("vid", "V")]⟩, 301)
    ∧ Detourer.ServeHTTP ⟨[(2405380, 991018705459705153)], "ocul-crl", "V"⟩
        ⟨"/record=bXYZ", fun _ => ""⟩
      = (⟨"https", "ocul-crl", "/discovery/search", [("vid", "V")]⟩, 301) :=
  ⟨(record_permalink_redirect _ ⟨"/record=b2405380", fun _ => ""⟩ (by decide)).1
      2405380 991018705459705153 (by decide) (by decide),
    (record_permalink_redirect _ ⟨"/record=b999", fun _ => ""⟩ (by decide)).2.2
      999 (by decide) (by decide),
    (record_permalink_redirect _ ⟨"/record=bXYZ", fun _ => ""⟩ (by decide)).2.1
      (by decide)⟩

/-- C2: whenever a legacy ID that was already inserted — earlier in the
same source or in a previously processed source — is parsed again, the
whole load fails with the error naming that ID (Go formats "Previously
seen Bib ID %v was encountered."), and `boot` yields no `Detourer`, so the
partially built table can never serve requests. -/
theorem duplicate_legacy_id_load_fails (subdomain vid : String)
    (files1 files2 : List (List String)) (pre rest : List String) (l : String)
    (m1 m : Table) (b ex : Nat)
    (h1 : processFiles [] files1 = .ok m1)
    (h2 : processLinesAux m1 0 pre = .ok m)
    (h3 : processLine l = .ok (b, ex))
    (h4 : (List.lookup b m).isSome = true) :
    processFiles [] (files1 ++ (pre ++ l :: rest) :: files2)
      = .error (.duplicate b)
    ∧ boot subdomain vid (files1 ++ (pre ++ l :: rest) :: files2)
      = .error (.duplicate b) := by
  have hfile : processFile m1 (pre ++ l :: rest) = .error (.duplicate b) := by
    unfold processFile
    rw [processLinesAux_ok_append pre (l :: rest) m1 m 0 h2]
    simp only [processLinesAux, h3, if_pos h4]
  have hall : processFiles [] (files1 ++ (pre ++ l :: rest) :: files2)
      = .error (.duplicate b) := by
    rw [processFiles_ok_append files1 _ [] m1 h1]
    simp only [processFiles, hfile]
  refine ⟨hall, ?_⟩
  unfold boot
  rw [hall]

/-- C2 witness: legacy ID 1 loaded from the first source reappears in the
second source; the load reports duplicate ID 1 and boot yields no server
state. -/
theorem duplicate_legacy_id_load_fails_witness :
    processFiles [] [["5,b1-x"], ["6,b1-y"]] = .error (.duplicate 1)
    ∧ boot "sub" "vid" [["5,b1-x"], ["6,b1-y"]] = .error (.duplicate 1) :=
  duplicate_legacy_id_load_fails "sub" "vid" [["5,b1-x"]] [] [] [] "6,b1-y"
    [(1, 5)] [(1, 5)] 1 6 rfl rfl rfl rfl

/-- C3: every valid mapping line `<id64>,<flag><id32>-<suffix>` whose id32
digits denote a value below `2 ^ 32` and whose id64 digits denote a value
below `2 ^ 64` parses to the pair `(id32, id64)` with no error; when the
un-truncated digits before the dash denote a value of `2 ^ 32` or more, or
the first field denotes `2 ^ 64` or more, `processLine` returns an error
(the range failure of the corresponding `strconv.ParseUint` call).  The
flag is restricted to ASCII, where the model's character-level slicing
agrees with Go's byte-level `splitLine[1][1:]`. -/
theorem processLine_valid_and_range (s64 s32 suffix : List Char) (flag : Char)
    (h64n : s64 ≠ []) (h64d : ∀ c ∈ s64, c.isDigit = true)
    (h32n : s32 ≠ []) (h32d : ∀ c ∈ s32, c.isDigit = true)
    (hfc : flag ≠ ',') (hfd : flag ≠ '-') ( _hascii : flag.toNat < 128) :
    (digitsVal s32 < 2 ^ 32 → digitsVal s64 < 2 ^ 64 →
      processLine ⟨s64 ++ ',' :: flag :: (s32 ++ '-' :: suffix)⟩
        = .ok (digitsVal s32, digitsVal s64))
    ∧ (2 ^ 32 ≤ digitsVal s32 ∨ 2 ^ 64 ≤ digitsVal s64 →
      processLine ⟨s64 ++ ',' :: flag :: (s32 ++ '-' :: suffix)⟩
        = .error .parseIntError) := by
  have h64 := digit_all_ne h64d
  have h32 := digit_all_ne h32d
  have hmain : processLine ⟨s64 ++ ',' :: flag :: (s32 ++ '-' :: suffix)⟩ =
      (match parseUint s32 32 with
       | none => .error .parseIntError
       | some bibID =>
         match parseUint s64 64 with
         | none => .error .parseIntError
         | some exlID => Except.ok (bibID, exlID)) := by
    rw [processLine_split s64 (flag :: (s32 ++ '-' :: suffix)) h64.1]
    have hp32 : ∀ x ∈ s32, ((fun x => x != ',') x) = true :=
      fun x hx => bne_iff_ne.mpr fun e => h32.1 (e ▸ hx)
    have htw : (flag :: (s32 ++ '-' :: suffix)).takeWhile (fun x => x != ',')
        = flag :: (s32 ++ '-' :: suffix.takeWhile (fun x => x != ',')) := by
      rw [List.takeWhile_cons, takeWhile_append_all s32 _ hp32, List.takeWhile_cons]
      simp [bne_iff_ne.mpr hfc]
    rw [htw, extractBibID_dash flag s32 _ hfd h32.2 h32n]
  constructor
  · intro hb32 hb64
    have hb32n : digitsVal s32 < 4294967296 := hb32
    have hb64n : digitsVal s64 < 18446744073709551616 := hb64
    rw [hmain, parseUint_digits s32 32 h32n h32d, parseUint_digits s64 64 h64n h64d]
    simp [hb32n, hb64n]
  · intro hover
    rw [hmain, parseUint_digits s32 32 h32n h32d]
    rcases hover with hov | hov
    · have hnb : ¬ digitsVal s32 < 4294967296 := Nat.not_lt.mpr hov
      simp [hnb]
    · by_cases hb32 : digitsVal s32 < 4294967296
      · have hnb : ¬ digitsVal s64 < 18446744073709551616 := Nat.not_lt.mpr hov
        rw [parseUint_digits s64 64 h64n h64d]
        simp [hb32, hnb]
      · simp [hb32]

/-- C3 witness: the extreme in-range line from the test data parses to the
maximum 32/64-bit values, and a line whose bibID digits denote
`2 ^ 32` fails. -/
theorem processLine_valid_and_range_witness :
    processLine ⟨"18446744073709551615".toList ++ ',' :: 'b' ::
        "4294967295".toList ++ '-' :: "01suffix,".toList⟩
      = .ok (4294967295, 18446744073709551615)
    ∧ processLine ⟨"1".toList ++ ',' :: 'b' :: "4294967296".toList ++ '-' :: "x".toList⟩
      = .error .parseIntError :=
  ⟨(processLine_valid_and_range "18446744073709551615".toList "4294967295".toList
      "01suffix,".toList 'b' (by decide) (by decide) (by decide) (by decide)
      (by decide) (by decide) (by decide)).1 (by decide) (by decide),
    (processLine_valid_and_range "1".toList "4294967296".toList "x".toList 'b'
      (by decide) (by decide) (by decide) (by decide)
      (by decide) (by decide) (by decide)).2 (Or.inl (by decide))⟩

/-- C9: the parser strips the leading type-flag character of the second
field and takes as the legacy ID exactly the digits before the first dash
when a dash is present, and the whole remainder after the flag character
when no dash is present; a dash at offset 0 or 1 of the field makes
parsing fail with the format error (`noBibID`).  The last two conjuncts
state the failure at the `processLine` level for whole lines.  The flag is
restricted to ASCII, where character-level and Go byte-level slicing
agree. -/
theorem bibid_field_extraction (flag : Char) (ds suffix rest f0 : List Char)
    (hf : flag ≠ '-') (hfc : flag ≠ ',') ( _hascii : flag.toNat < 128)
    (hds : '-' ∉ ds) (h0 : ',' ∉ f0) :
    (ds ≠ [] → extractBibID (flag :: (ds ++ '-' :: suffix)) = .ok ds)
    ∧ ('-' ∉ rest → extractBibID (flag :: rest) = .ok rest)
    ∧ extractBibID ('-' :: rest) = .error .noBibID
    ∧ extractBibID (flag :: '-' :: rest) = .error .noBibID
    ∧ processLine ⟨f0 ++ ',' :: '-' :: rest⟩ = .error .noBibID
    ∧ processLine ⟨f0 ++ ',' :: flag :: '-' :: rest⟩ = .error .noBibID := by
  refine ⟨fun hne => extractBibID_dash flag ds suffix hf hds hne,
    fun hr => extractBibID_noDash flag rest ?_,
    extractBibID_dashAtZero rest,
    extractBibID_dashAtOne flag rest hf, ?_, ?_⟩
  · intro hm
    rcases List.mem_cons.mp hm with hm2 | hm2
    · exact hf hm2.symm
    · exact hr hm2
  · rw [processLine_split f0 ('-' :: rest) h0]
    have htw : ('-' :: rest).takeWhile (fun x => x != ',')
        = '-' :: rest.takeWhile (fun x => x != ',') := by
      simp [List.takeWhile_cons]
    rw [htw, extractBibID_dashAtZero]
  · rw [processLine_split f0 (flag :: '-' :: rest) h0]
    have htw : (flag :: '-' :: rest).takeWhile (fun x => x != ',')
        = flag :: '-' :: rest.takeWhile (fun x => x != ',') := by
      simp [List.takeWhile_cons, bne_iff_ne.mpr hfc]
    rw [htw, extractBibID_dashAtOne flag _ hf]

/-- C9 witness: concrete fields exercising all six conjuncts — dash after
digits, no dash, dash at offset 0, dash at offset 1, and the two whole-line
failure cases. -/
theorem bibid_field_extraction_witness :
    extractBibID ('b' :: ['1'] ++ '-' :: ['s']) = .ok ['1']
    ∧ extractBibID ('b' :: ['2']) = .ok ['2']
    ∧ extractBibID ('-' :: ['2']) = .error .noBibID
    ∧ extractBibID ('b' :: '-' :: ['2']) = .error .noBibID
    ∧ processLine ⟨['7'] ++ ',' :: '-' :: ['2']⟩ = .error .noBibID
    ∧ processLine ⟨['7'] ++ ',' :: 'b' :: '-' :: ['2']⟩ = .error .noBibID := by
  have H := bibid_field_extraction 'b' ['1'] ['s'] ['2'] ['7']
    (by decide) (by decide) (by decide) (by decide) (by decide)
  exact ⟨H.1 (by decide), H.2.1 (by decide), H.2.2.1, H.2.2.2.1,
    H.2.2.2.2.1, H.2.2.2.2.2⟩

/-- C4: the advanced-search decoder is total — by construction it maps
every input string to a plain list of terms, with no failure case in its
type — and each of the five degenerate inputs decodes to the empty
sequence.  (Settled against the spec-modelled decoder, whose
implementation is absent from src/.) -/
theorem decode_total_and_empty_inputs :
    (∀ s : String, ∃ ts : List SearchTerm, decodeAdvancedSearch s = ts)
    ∧ decodeAdvancedSearch "" = []
    ∧ decodeAdvancedSearch "()" = []
    ∧ decodeAdvancedSearch "(())" = []
    ∧ decodeAdvancedSearch "))" = []
    ∧ decodeAdvancedSearch "((" = [] :=
  ⟨fun s => ⟨decodeAdvancedSearch s, rfl⟩, rfl, rfl, rfl, rfl, rfl⟩

/-- C5: a decoded segment without the exact `<field-letter>:(<text>)`
shape (closing paren at the segment's very end) gets no field extracted:
its full literal text (after only enclosing-paren stripping) becomes a
term under the `any` field; in particular the spec's example with no inner
parens yields exactly the two `any`-field literal terms.  (Settled against
the spec-modelled decoder, whose implementation is absent from src/.) -/
theorem nonfield_segment_literal_any (toks : List (List Char)) (conn : Conn)
    (hshape : matchFieldShape (stripSegParens (joinSpace toks)) = none)
    (htext : allParen (stripSegParens (joinSpace toks)) = false) :
    segmentTerm toks conn
      = some ⟨Field.any, "contains", String.mk (stripSegParens (joinSpace toks)), conn⟩
    ∧ decodeAdvancedSearch "(t:spiders) and not (d:biology)"
      = [⟨Field.any, "contains", "t:spiders", Conn.NOT⟩,
         ⟨Field.any, "contains", "d:biology", Conn.AND⟩] := by
  constructor
  · simp [segmentTerm, htext, hshape]
  · rfl

/-- C5 witness: the one-token segment `x` has no field shape and becomes
the literal `any` term, and the spec's concrete example decodes to the two
literal terms. -/
theorem nonfield_segment_literal_any_witness :
    segmentTerm [['x']] Conn.AND = some ⟨Field.any, "contains", "x", Conn.AND⟩
    ∧ decodeAdvancedSearch "(t:spiders) and not (d:biology)"
      = [⟨Field.any, "contains", "t:spiders", Conn.NOT⟩,
         ⟨Field.any, "contains", "d:biology", Conn.AND⟩] :=
  nonfield_segment_literal_any [['x']] Conn.AND (by decide) (by decide)

/-- C10 witness: the bare search path with an empty query map lands on the
default search page with only the vid parameter. -/
theorem empty_searcharg_default_landing_witness :
    Detourer.ServeHTTP ⟨[], "example", "VID"⟩ ⟨"/search/", fun _ => ""⟩
      = (⟨"https", "example", "/discovery/search", [("vid", "VID")]⟩, 301) :=
  empty_searcharg_default_landing ⟨[], "example", "VID"⟩ ⟨"/search/", fun _ => ""⟩
    (by decide) (by decide) (by decide) (by decide) (by decide) (by decide) rfl

end PermanentDetour
